import Mathlib

/-!
Verification of the badinka-monitor ingestion pipeline.

This file shallowly embeds the ingestion components of the repository
(`unified_reddit_monitor.py` and `all_in_one_reddit_monitor.py`) as
executable Lean definitions and proves or refutes the frozen claims
about them.  Machine floats only occur as wall-clock timestamps, which
are modelled exactly as rationals; the database is modelled as a list of
rows; network and database I/O is modelled by explicit outcome
parameters.
-/

namespace BadinkaMonitor

/-! ## Brand matcher (`find_brands` and the compiled regex patterns)

The configured patterns are of the shape `[@#]?badinka(?:\.com)?`
compiled with `re.IGNORECASE` and used via `pattern.search(text)`.
We embed the relevant fragment of the regex language (literals,
one-character classes, optional groups, concatenation), with
case-insensitive comparison baked in exactly as `re.IGNORECASE`
provides it. -/

/-- Case-insensitive "the first list is a prefix of the second". -/
def caselessStarts : List Char → List Char → Bool
  | [], _ => true
  | _ :: _, [] => false
  | p :: ps, c :: cs => (p.toLower == c.toLower) && caselessStarts ps cs

/-- The regex fragment used by the brand patterns. -/
inductive Rx
  | lit (s : List Char)
  | cls (ks : List Char)
  | opt (r : Rx)
  | seq (r₁ r₂ : Rx)

/-- All possible remainders after matching `r` at the front of the input
(the regex engine's nondeterminism, case-insensitive). -/
def rxMatch : Rx → List Char → List (List Char)
  | .lit s, cs => if caselessStarts s cs then [cs.drop s.length] else []
  | .cls _, [] => []
  | .cls ks, c :: rest => if ks.contains c.toLower then [rest] else []
  | .opt r, cs => rxMatch r cs ++ [cs]
  | .seq r₁ r₂, cs => (rxMatch r₁ cs).flatMap (fun rest => rxMatch r₂ rest)

/-- `re.search` semantics: does the pattern match at some position? -/
def rxSearchAux (r : Rx) : List Char → Bool
  | [] => !(rxMatch r []).isEmpty
  | c :: cs => !(rxMatch r (c :: cs)).isEmpty || rxSearchAux r cs

/-- `pattern.search(text)` truthiness. -/
def rxSearch (r : Rx) (s : String) : Bool :=
  rxSearchAux r s.data

/-- The pattern `[@#]?badinka(?:\.com)?` (compiled case-insensitively). -/
def badinkaRx : Rx :=
  .seq (.opt (.cls ['@', '#'])) (.seq (.lit "badinka".data) (.opt (.lit ".com".data)))

/-- The pattern `[@#]?iheartraves(?:\.com)?` (compiled case-insensitively). -/
def iheartravesRx : Rx :=
  .seq (.opt (.cls ['@', '#'])) (.seq (.lit "iheartraves".data) (.opt (.lit ".com".data)))

/-- The `brands` mapping built by `load_config` / `CONFIG`, in dict order. -/
def unifiedBrands : List (String × Rx) :=
  [("badinka", badinkaRx), ("iheartraves", iheartravesRx)]

/-- `UnifiedRedditMonitor.find_brands` / `RedditMonitor.find_brands`:
iterate over the configured brands and keep those whose pattern matches. -/
def find_brands (brands : List (String × Rx)) (text : String) : List String :=
  (brands.filter (fun p => rxSearch p.2 text)).map (fun p => p.1)

/-! ## Data model

The `Mention` dataclass.  The source stores `created` as an ISO-8601
string produced by `datetime.fromtimestamp(..., tz=timezone.utc)
.isoformat()`; the embedding keeps the epoch timestamp itself, an
injective presentation of the same datum. -/

/-- The `Mention` dataclass (both variants declare identical fields). -/
structure Mention where
  id : String
  type : String
  title : Option String
  body : Option String
  permalink : String
  created : Nat
  subreddit : String
  author : String
  score : Int
  sentiment : Option String
  brand : String
  source : String
  deriving DecidableEq, Repr

/-- The source-native fields of one comment as delivered by the JSON
listing (`comment_data`) or by the PRAW stream (`comment`). -/
structure CommentData where
  id : String
  body : String
  permalink : String
  created_utc : Nat
  subreddit : String
  author : String
  score : Int
  deriving DecidableEq, Repr

/-! ## Dedup filter

`self.seen_ids` is a Python `set` seeded by
`DatabaseManager.get_existing_ids()`; we model it as a `Finset String`.
`markSeen` is `set.add`, `seenQ` is `in`. -/

/-- `self.seen_ids.add(x)`. -/
def markSeen (s : Finset String) (x : String) : Finset String :=
  insert x s

/-- `x in self.seen_ids`. -/
def seenQ (s : Finset String) (x : String) : Prop :=
  x ∈ s

instance (s : Finset String) (x : String) : Decidable (seenQ s x) := by
  unfold seenQ; infer_instance

/-! ## Source adapter steps

One iteration of the per-item body of `_process_json_comments` and of
the PRAW comment loop in `stream_praw_comments`, acting on the shared
seen-set and mention buffer. -/

/-- Which gate (if any) dropped the item, mirroring the `continue`
statements of the source. -/
inductive JsonOutcome
  | missingId
  | duplicate
  | tooShort
  | admitted
  deriving DecidableEq, Repr

/-- The draft built for one matched brand inside `_process_json_comments`. -/
def mkJsonMention (cd : CommentData) (brand : String) : Mention :=
  { id := cd.id, type := "comment", title := none, body := some cd.body,
    permalink := "https://reddit.com" ++ cd.permalink, created := cd.created_utc,
    subreddit := cd.subreddit, author := cd.author, score := cd.score,
    sentiment := none, brand := brand, source := "json" }

/-- The draft built for one matched brand inside `stream_praw_comments`. -/
def mkPrawMention (cd : CommentData) (brand : String) : Mention :=
  { id := cd.id, type := "comment", title := none, body := some cd.body,
    permalink := "https://reddit.com" ++ cd.permalink, created := cd.created_utc,
    subreddit := cd.subreddit, author := cd.author, score := cd.score,
    sentiment := none, brand := brand, source := "praw" }

/-- One child of `_process_json_comments`: the missing-id/seen gate, the
`len(body) < 10` gate, then one buffered draft per matched brand; the
id is added to `seen_ids` inside the per-brand loop, hence only when at
least one brand matched. -/
def processJsonComment (seen : Finset String) (buffer : List Mention)
    (cd : CommentData) : Finset String × List Mention × JsonOutcome :=
  if cd.id = "" then (seen, buffer, .missingId)
  else if seenQ seen cd.id then (seen, buffer, .duplicate)
  else if cd.body.length < 10 then (seen, buffer, .tooShort)
  else
    let brands := find_brands unifiedBrands cd.body
    if brands.isEmpty then (seen, buffer, .admitted)
    else (markSeen seen cd.id, buffer ++ brands.map (mkJsonMention cd), .admitted)

/-- One comment of the PRAW stream loop: the seen gate, then one
buffered draft per matched brand; the id is marked seen only inside the
per-brand loop (the stream has no length gate and its ids are never
absent). -/
def processPrawComment (seen : Finset String) (buffer : List Mention)
    (cd : CommentData) : Finset String × List Mention × JsonOutcome :=
  if seenQ seen cd.id then (seen, buffer, .duplicate)
  else
    let brands := find_brands unifiedBrands cd.body
    if brands.isEmpty then (seen, buffer, .admitted)
    else (markSeen seen cd.id, buffer ++ brands.map (mkPrawMention cd), .admitted)

/-! ## Persistence (`DatabaseManager`)

The store is a list of rows.  `unified_reddit_monitor` declares
`id VARCHAR(50) PRIMARY KEY` and upserts with
`ON CONFLICT (id) DO UPDATE SET score = EXCLUDED.score,
sentiment = EXCLUDED.sentiment`; `all_in_one_reddit_monitor` declares
`id TEXT PRIMARY KEY` and uses `INSERT OR REPLACE`, which deletes the
conflicting row and inserts the new one. -/

/-- Upsert of one row under Postgres `ON CONFLICT (id) DO UPDATE SET
score = EXCLUDED.score, sentiment = EXCLUDED.sentiment` semantics. -/
def upsertPg (db : List Mention) (m : Mention) : List Mention :=
  if db.any (fun r => r.id == m.id) then
    db.map (fun r => if r.id == m.id then { r with score := m.score, sentiment := m.sentiment } else r)
  else
    db ++ [m]

/-- The row-wise effect of the unified variant's batch upsert: valid as
the semantics of `DatabaseManager.insert_mentions` for batches whose
ids are pairwise distinct (the single multi-row statement, including
its duplicate-id error path, is `insertMentionsPgStmt` below). -/
def insertMentionsPg (db : List Mention) (ms : List Mention) : List Mention :=
  ms.foldl upsertPg db

/-- Does the batch hold two rows with the same id? -/
def hasDupIds : List Mention → Bool
  | [] => false
  | m :: rest => rest.any (fun r => r.id == m.id) || hasDupIds rest

/-- `DatabaseManager.insert_mentions` of `unified_reddit_monitor`: one
multi-row `INSERT ... VALUES %s ON CONFLICT (id) DO UPDATE` statement
issued through `execute_values`.  PostgreSQL refuses to touch the same
row twice within one command: a batch holding two rows with the same id
raises `ON CONFLICT DO UPDATE command cannot affect row a second time`,
the statement is aborted and `conn.commit()` is never reached, so the
store keeps its prior contents (the caller sees the exception and the
unchanged `db`); a batch with pairwise-distinct ids upserts every
row. -/
def insertMentionsPgStmt (db : List Mention) (ms : List Mention) :
    Except String (List Mention) :=
  if hasDupIds ms then .error "cannot affect row a second time"
  else .ok (ms.foldl upsertPg db)

/-- Upsert of one row under SQLite `INSERT OR REPLACE` semantics: the
conflicting row (if any) is deleted and the incoming row inserted. -/
def upsertSqlite (db : List Mention) (m : Mention) : List Mention :=
  db.filter (fun r => !(r.id == m.id)) ++ [m]

/-- `DatabaseManager.insert_mentions` of `all_in_one_reddit_monitor`
(a per-row loop of `INSERT OR REPLACE`). -/
def insertMentionsSqlite (db : List Mention) (ms : List Mention) : List Mention :=
  ms.foldl upsertSqlite db

/-- `SELECT`ing the row a given id resolves to (first match). -/
def lookupId : List Mention → String → Option Mention
  | [], _ => none
  | r :: rest, id => if r.id == id then some r else lookupId rest id

/-! ## Mention buffer and flush (`process_mention_buffer`)

`process_mention_buffer` enriches every buffered mention whose
sentiment is still `None` (the analyzer never raises, see `analyze`
below, so enrichment is modelled by a total oracle `enrich`), then
calls `insert_mentions` and only then clears the buffer.  A database
failure raises out of `insert_mentions`; the model returns the
post-exception in-memory state (`insert_mentions` commits once, so a
failure leaves the store unchanged) on the `error` side. -/

/-- The shared in-memory pipeline state: `self.mention_buffer` and the
persisted store. -/
structure PipelineState where
  buffer : List Mention
  db : List Mention
  deriving DecidableEq, Repr

/-- `text = f"{mention.title or ''} {mention.body or ''}"`. -/
def mentionText (m : Mention) : String :=
  (m.title.getD "") ++ " " ++ (m.body.getD "")

/-- The per-mention enrichment step of `process_mention_buffer`:
`if mention.sentiment is None: mention.sentiment = analyze(text)`. -/
def enrichMention (enrich : String → String) (m : Mention) : Mention :=
  if m.sentiment = none then { m with sentiment := some (enrich (mentionText m)) } else m

/-- `process_mention_buffer` (unified variant; the all-in-one variant is
line-for-line identical): `dbOk` says whether `insert_mentions`
succeeds; on failure the exception propagates with the store untouched
and the buffer still holding the (enriched) mentions. -/
def processMentionBuffer (enrich : String → String) (dbOk : Bool)
    (st : PipelineState) : Except PipelineState PipelineState :=
  if st.buffer.isEmpty then .ok st
  else
    let enriched := st.buffer.map (enrichMention enrich)
    if dbOk then .ok { buffer := [], db := insertMentionsPg st.db enriched }
    else .error { buffer := enriched, db := st.db }

/-! ## Task loops (`periodic_buffer_flush` and the adapter loops)

`periodic_buffer_flush` is `while True: sleep(30); if buffer:
process_mention_buffer()` with no `try`/`except`, so an exception from
the flush terminates the task; each adapter loop (`monitor_json_api`,
`monitor_rss_feeds`, `stream_praw_comments`) wraps its whole cycle in
`try ... except Exception: logger.error(...); sleep(...)` and
continues. -/

/-- One iteration of `periodic_buffer_flush` (the 30s sleep elided). -/
def periodicFlushIteration (enrich : String → String) (dbOk : Bool)
    (st : PipelineState) : Except PipelineState PipelineState :=
  if st.buffer.isEmpty then .ok st
  else processMentionBuffer enrich dbOk st

/-- The `periodic_buffer_flush` task: an uncaught error short-circuits
the loop (the task terminates). -/
def flushTaskLoop (enrich : String → String) (dbOk : Bool) :
    Nat → PipelineState → Except PipelineState PipelineState
  | 0, st => .ok st
  | n + 1, st =>
    match periodicFlushIteration enrich dbOk st with
    | .ok st' => flushTaskLoop enrich dbOk n st'
    | .error e => .error e

/-- A task state carrying a count of errors logged by `except` blocks. -/
structure TaskState where
  pipeline : PipelineState
  logged : Nat
  deriving DecidableEq, Repr

/-- An adapter task loop (`monitor_json_api` et al.): each cycle body
may raise, but the loop's top-level `except Exception` catches, logs
and continues with the state the failed cycle left behind. -/
def adapterTaskLoop (body : PipelineState → Except PipelineState PipelineState) :
    Nat → TaskState → TaskState
  | 0, ts => ts
  | n + 1, ts =>
    match body ts.pipeline with
    | .ok st' => adapterTaskLoop body n ⟨st', ts.logged⟩
    | .error st' => adapterTaskLoop body n ⟨st', ts.logged + 1⟩

/-! ## Rate limiter (`RateLimiter.acquire`)

Wall-clock timestamps are modelled as rationals.  `acquire` prunes the
grant list, and while the budget is exhausted sleeps until the oldest
grant is exactly 60 seconds old and retries; sleeping is modelled by
advancing `now` by the sleep amount.  The function returns the new
grant list together with the time at which the call returns.

(The `pruned ≠ []` conjunct in the guard is implied by the
`budget ≤ length` test for every budget ≥ 1, i.e. for every limiter the
source constructs; with budget 0 and no recorded grants the source
would raise `IndexError` on `self.requests[0]`.) -/

/-- `self.requests = [t for t in self.requests if now - t < 60]`. -/
def prune (now : ℚ) (reqs : List ℚ) : List ℚ :=
  reqs.filter (fun t => now - t < 60)

theorem prune_length_lt (now : ℚ) (reqs : List ℚ) (h : reqs ≠ [])
    (h0 : ¬(now - reqs.headD 0 < 60)) :
    (prune now reqs).length < reqs.length := by
  match reqs, h with
  | t :: ts, _ =>
    have : (t :: ts).headD 0 = t := rfl
    rw [this] at h0
    simp only [prune, List.filter]
    rw [decide_eq_false h0]
    exact Nat.lt_succ_of_le (List.length_filter_le _ ts)

/-- `RateLimiter.acquire`. -/
def acquire (budget : Nat) (reqs : List ℚ) (now : ℚ) : List ℚ × ℚ :=
  let pruned := prune now reqs
  if h : budget ≤ pruned.length ∧ pruned ≠ [] then
    let t0 := pruned.headD 0
    let sleepT := 60 - (now - t0)
    if 0 < sleepT then
      acquire budget pruned (now + sleepT)
    else
      (pruned ++ [now], now)
  else
    (pruned ++ [now], now)
termination_by (prune now reqs).length
decreasing_by
  simp_wf
  refine prune_length_lt _ _ h.2 ?_
  simp only [List.headD_eq_head?_getD]
  have : now + (60 - (now - (prune now reqs).head?.getD 0)) - (prune now reqs).head?.getD 0
      = (60 : ℚ) := by ring
  rw [this]
  norm_num

/-! ## Sentiment enricher (`SentimentAnalyzer.analyze`)

We model the all-in-one variant, which carries the credential guard
(`not text or len(text.strip()) == 0 or not auth or "Bearer " not in
auth`); the unified variant has only the empty-text guard and is
otherwise identical.  The HTTP exchange is an explicit outcome: a
successful JSON payload (a list whose first element is the
label/score list), a non-200 status, or an exception (timeout, network
failure, unparsable body).  Everything after the guard sits inside
`try ... except Exception: return "neutral"`, so an out-of-range access
(`result[0]`) or `max()` on an empty list also yields `"neutral"`.
Scores are rationals; the result records the label returned and whether
an outbound call was made. -/

/-- One `{label, score}` entry of the classifier payload. -/
structure LabelScore where
  label : String
  score : ℚ
  deriving DecidableEq, Repr

/-- The modelled HTTP exchange of one `session.post`. -/
inductive ApiResponse
  | success (payload : List (List LabelScore))
  | httpStatus (status : Nat)
  | failure
  deriving DecidableEq, Repr

/-- Case-sensitive "the first list starts the second". -/
def startsWithChars : List Char → List Char → Bool
  | [], _ => true
  | _ :: _, [] => false
  | a :: as, b :: bs => a == b && startsWithChars as bs

/-- Python's `in` on strings: `needle` occurs as a contiguous substring. -/
def containsSub (needle : List Char) : List Char → Bool
  | [] => needle.isEmpty
  | c :: cs => startsWithChars needle (c :: cs) || containsSub needle cs

/-- `max(scores, key=lambda x: x['score'])`: the first entry of maximal
score (later entries replace only on strictly greater score). -/
def maxByScore (s : LabelScore) (rest : List LabelScore) : LabelScore :=
  rest.foldl (fun acc x => if acc.score < x.score then x else acc) s

/-- The label-mapping tail of `analyze`: substring policy on the
lowercased top label. -/
def classifyLabel (top : LabelScore) : String :=
  if containsSub "positive".data top.label.toLower.data then "positive"
  else if containsSub "negative".data top.label.toLower.data then "negative"
  else "neutral"

/-- Python's `str.strip()`: drop whitespace from both ends. -/
def stripChars (cs : List Char) : List Char :=
  ((cs.dropWhile Char.isWhitespace).reverse.dropWhile Char.isWhitespace).reverse

/-- The credential disjuncts of the guard:
`not auth or "Bearer " not in auth` with `auth = f"Bearer {api_token}"`. -/
def credentialAbsentCheck (api_token : String) : Bool :=
  ("Bearer " ++ api_token) == "" || !containsSub "Bearer ".data ("Bearer " ++ api_token).data

/-- The guard of the all-in-one `analyze`:
`not text or len(text.strip()) == 0 or not auth or "Bearer " not in auth`. -/
def analyzeGuard (api_token : String) (text : String) : Bool :=
  text == "" || (stripChars text.data).isEmpty || credentialAbsentCheck api_token

/-- `SentimentAnalyzer.analyze` (all-in-one variant), returning the
label together with whether an outbound HTTP call was made. -/
def analyze (api_token : String) (text : String) (resp : ApiResponse) : String × Bool :=
  if analyzeGuard api_token text then ("neutral", false)
  else
    match resp with
    | .success payload =>
      match payload with
      | [] => ("neutral", true)
      | scores :: _ =>
        match scores with
        | [] => ("neutral", true)
        | s :: rest => (classifyLabel (maxByScore s rest), true)
    | .httpStatus _ => ("neutral", true)
    | .failure => ("neutral", true)

/-! ## Lemmas: the regex engine only sees the input through `Char.toLower` -/

/-- Two inputs that agree after lowercasing. -/
def SameCaseless (cs₁ cs₂ : List Char) : Prop :=
  cs₁.map Char.toLower = cs₂.map Char.toLower

theorem sameCaseless_length {cs₁ cs₂ : List Char} (h : SameCaseless cs₁ cs₂) :
    cs₁.length = cs₂.length := by
  have := congrArg List.length h
  simpa using this

theorem caselessStarts_congr (p : List Char) {cs₁ cs₂ : List Char}
    (h : SameCaseless cs₁ cs₂) : caselessStarts p cs₁ = caselessStarts p cs₂ := by
  induction p generalizing cs₁ cs₂ with
  | nil => rfl
  | cons a as ih =>
    cases cs₁ with
    | nil =>
      cases cs₂ with
      | nil => rfl
      | cons b bs => simp [SameCaseless] at h
    | cons b bs =>
      cases cs₂ with
      | nil => simp [SameCaseless] at h
      | cons c cs =>
        simp only [SameCaseless, List.map_cons, List.cons.injEq] at h
        simp only [caselessStarts, ih h.2]
        rw [h.1]

theorem sameCaseless_drop {cs₁ cs₂ : List Char} (h : SameCaseless cs₁ cs₂) (n : Nat) :
    SameCaseless (cs₁.drop n) (cs₂.drop n) := by
  unfold SameCaseless
  rw [List.map_drop, List.map_drop, h]

theorem forall₂_append_my {α : Type} {R : α → α → Prop} {l₁ l₂ l₃ l₄ : List α}
    (h₁ : List.Forall₂ R l₁ l₂) (h₂ : List.Forall₂ R l₃ l₄) :
    List.Forall₂ R (l₁ ++ l₃) (l₂ ++ l₄) := by
  induction h₁ with
  | nil => simpa using h₂
  | cons hab _ ih => exact List.Forall₂.cons hab ih

theorem forall₂_flatMap {α : Type} {R : α → α → Prop} {l₁ l₂ : List α}
    (f : α → List α) (h : List.Forall₂ R l₁ l₂)
    (hf : ∀ a b, R a b → List.Forall₂ R (f a) (f b)) :
    List.Forall₂ R (l₁.flatMap f) (l₂.flatMap f) := by
  induction h with
  | nil => simp [List.flatMap]
  | cons hab _ ih =>
    simp only [List.flatMap_cons]
    exact forall₂_append_my (hf _ _ hab) ih

theorem rxMatch_congr (r : Rx) : ∀ {cs₁ cs₂ : List Char}, SameCaseless cs₁ cs₂ →
    List.Forall₂ SameCaseless (rxMatch r cs₁) (rxMatch r cs₂) := by
  induction r with
  | lit s =>
    intro cs₁ cs₂ h
    simp only [rxMatch, caselessStarts_congr s h]
    split
    · exact List.Forall₂.cons (sameCaseless_drop h s.length) List.Forall₂.nil
    · exact List.Forall₂.nil
  | cls ks =>
    intro cs₁ cs₂ h
    cases cs₁ with
    | nil =>
      cases cs₂ with
      | nil => exact List.Forall₂.nil
      | cons b bs => simp [SameCaseless] at h
    | cons b bs =>
      cases cs₂ with
      | nil => simp [SameCaseless] at h
      | cons c cs =>
        simp only [SameCaseless, List.map_cons, List.cons.injEq] at h
        simp only [rxMatch, h.1]
        split
        · exact List.Forall₂.cons h.2 List.Forall₂.nil
        · exact List.Forall₂.nil
  | opt r ih =>
    intro cs₁ cs₂ h
    simp only [rxMatch]
    exact forall₂_append_my (ih h) (List.Forall₂.cons h List.Forall₂.nil)
  | seq r₁ r₂ ih₁ ih₂ =>
    intro cs₁ cs₂ h
    simp only [rxMatch]
    exact forall₂_flatMap _ (ih₁ h) (fun a b hab => ih₂ hab)

theorem isEmpty_congr_of_length {α : Type} {l₁ l₂ : List α}
    (h : l₁.length = l₂.length) : l₁.isEmpty = l₂.isEmpty := by
  cases l₁ <;> cases l₂ <;> simp_all

theorem rxSearchAux_congr (r : Rx) : ∀ {cs₁ cs₂ : List Char}, SameCaseless cs₁ cs₂ →
    rxSearchAux r cs₁ = rxSearchAux r cs₂ := by
  intro cs₁
  induction cs₁ with
  | nil =>
    intro cs₂ h
    cases cs₂ with
    | nil => rfl
    | cons c cs => simp [SameCaseless] at h
  | cons b bs ih =>
    intro cs₂ h
    cases cs₂ with
    | nil => simp [SameCaseless] at h
    | cons c cs =>
      have hm := (rxMatch_congr r h).length_eq
      have htl : SameCaseless bs cs := by
        simp only [SameCaseless, List.map_cons, List.cons.injEq] at h
        exact h.2
      simp only [rxSearchAux, isEmpty_congr_of_length hm, ih htl]

theorem rxSearch_congr (r : Rx) {s₁ s₂ : String}
    (h : s₁.data.map Char.toLower = s₂.data.map Char.toLower) :
    rxSearch r s₁ = rxSearch r s₂ :=
  rxSearchAux_congr r h

theorem find_brands_congr (brands : List (String × Rx)) {s₁ s₂ : String}
    (h : s₁.data.map Char.toLower = s₂.data.map Char.toLower) :
    find_brands brands s₁ = find_brands brands s₂ := by
  unfold find_brands
  rw [List.filter_congr (fun p _ => by rw [rxSearch_congr p.2 h])]

/-! ## Rate limiter lemmas -/

theorem mem_prune_lt {now t : ℚ} {reqs : List ℚ} (h : t ∈ prune now reqs) :
    now - t < 60 := by
  have := List.of_mem_filter h
  simpa using this

theorem headD_mem {l : List ℚ} (h : l ≠ []) : l.headD 0 ∈ l := by
  cases l with
  | nil => exact absurd rfl h
  | cons a as => exact List.mem_cons_self a as

/-- `acquire` never returns before the time it was called. -/
theorem acquire_now_le (budget : Nat) (reqs : List ℚ) (now : ℚ) :
    now ≤ (acquire budget reqs now).2 := by
  induction reqs, now using acquire.induct budget with
  | case1 reqs now pruned hcond t0 sleepT hpos ih =>
    rw [acquire]
    simp only [dif_pos hcond, if_pos hpos]
    have hlt : now - (prune now reqs).headD 0 < 60 := mem_prune_lt (headD_mem hcond.2)
    refine le_trans ?_ ih
    simp only [sleepT, t0, pruned]
    linarith
  | case2 reqs now pruned hcond t0 sleepT hpos =>
    rw [acquire]
    simp only [dif_pos hcond, if_neg hpos]
    exact le_rfl
  | case3 reqs now pruned hcond =>
    rw [acquire]
    simp only [dif_neg hcond]
    exact le_rfl

/-! ## Claim theorems -/

/-- C4: on `acquire`, grant timestamps older than 60 seconds are pruned,
and when the remaining count is at or above the budget the call suspends
exactly until the oldest remaining timestamp is 60 seconds old before
retrying (first conjunct: the call is the retry, issued on the pruned
list at exactly `oldest + 60`); consequently it does not return before
the oldest remaining timestamp is 60 seconds old (second conjunct).
Instantiated at budget 3 with 3 immediately preceding grants by the
witness. -/
theorem claim_C4_rate_limiter (budget : Nat) (reqs : List ℚ) (now : ℚ)
    (h1 : budget ≤ (prune now reqs).length) (h2 : prune now reqs ≠ []) :
    acquire budget reqs now = acquire budget (prune now reqs) ((prune now reqs).headD 0 + 60)
    ∧ (prune now reqs).headD 0 + 60 ≤ (acquire budget reqs now).2 := by
  have hlt : now - (prune now reqs).headD 0 < 60 := mem_prune_lt (headD_mem h2)
  have hpos : 0 < 60 - (now - (prune now reqs).headD 0) := by linarith
  have heq : acquire budget reqs now
      = acquire budget (prune now reqs) (now + (60 - (now - (prune now reqs).headD 0))) := by
    conv_lhs => rw [acquire]
    simp only [dif_pos (And.intro h1 h2), if_pos hpos]
  have harg : now + (60 - (now - (prune now reqs).headD 0)) = (prune now reqs).headD 0 + 60 := by
    ring
  rw [harg] at heq
  refine ⟨heq, ?_⟩
  rw [heq]
  exact acquire_now_le budget (prune now reqs) _

/-- C4 witness: budget 3, grants at times 0, 1, 2; a 4th `acquire` at
time 2 does not return before time 60 = first grant + 60. -/
theorem claim_C4_witness : (0 : ℚ) + 60 ≤ (acquire 3 [0, 1, 2] 2).2 := by
  have hp : prune 2 [0, 1, 2] = [(0 : ℚ), 1, 2] := by norm_num [prune, List.filter]
  have h := (claim_C4_rate_limiter 3 [0, 1, 2] 2 (by rw [hp]; decide) (by rw [hp]; decide)).2
  rw [hp] at h
  simpa using h

/-- C7: the Brand Matcher is case-insensitive (it only sees the input
through `Char.toLower`, for any brand configuration), is a pure
function (`find_brands` is a Lean function, hence side-effect-free and
deterministic), returns the empty list on empty text and on text that
none of the configured patterns matches, and on the spec's two concrete
examples returns exactly `["badinka"]` and `[]` respectively. -/
theorem claim_C7_brand_matcher :
    (∀ (brands : List (String × Rx)) (s₁ s₂ : String),
        s₁.data.map Char.toLower = s₂.data.map Char.toLower →
        find_brands brands s₁ = find_brands brands s₂)
    ∧ (∀ text : String, (∀ p ∈ unifiedBrands, rxSearch p.2 text = false) →
        find_brands unifiedBrands text = [])
    ∧ find_brands unifiedBrands "" = []
    ∧ find_brands unifiedBrands "no mention here" = []
    ∧ find_brands unifiedBrands "love my new badinka jacket" = ["badinka"] := by
  refine ⟨fun brands s₁ s₂ h => find_brands_congr brands h, ?_, by decide, by decide, by decide⟩
  intro text h
  unfold find_brands
  have : unifiedBrands.filter (fun p => rxSearch p.2 text) = [] := by
    rw [List.filter_eq_nil_iff]
    intro p hp
    simp [h p hp]
  rw [this]
  rfl

/-- C7 witness: the case-insensitivity and no-match conjuncts applied at
concrete inputs. -/
theorem claim_C7_witness :
    find_brands unifiedBrands "LOVE MY NEW BADINKA JACKET"
      = find_brands unifiedBrands "love my new badinka jacket"
    ∧ find_brands unifiedBrands "totally unrelated words" = [] :=
  ⟨claim_C7_brand_matcher.1 unifiedBrands _ _ (by decide),
   claim_C7_brand_matcher.2.1 "totally unrelated words" (by decide)⟩

/-- A comment whose body matches no configured brand (and is long
enough for the JSON adapter's length gate). -/
def cdNoMatch : CommentData :=
  { id := "abc123", body := "just talking about festivals", permalink := "/r/aves/c/abc123",
    created_utc := 1700000000, subreddit := "aves", author := "u_alice", score := 4 }

/-- A comment whose body matches the `badinka` pattern. -/
def cdBadinka : CommentData :=
  { id := "zz999", body := "check out badinka.com for rave wear", permalink := "/r/aves/c/zz999",
    created_utc := 1700000100, subreddit := "aves", author := "u_bob", score := 11 }

/-- C3 counterexample: a raw item with no brand match is admitted by the
dedup gate on its first sighting without any seen-set entry being
created, and therefore is admitted again — not rejected — on its second
sighting, refuting "the seen-set entry for an id is created on the
item's first sighting" and "every later sighting of that id is
rejected". -/
theorem claim_C3_counterexample :
    (processPrawComment ∅ [] cdNoMatch).2.2 = JsonOutcome.admitted
    ∧ (processPrawComment ∅ [] cdNoMatch).1 = ∅
    ∧ (processPrawComment (processPrawComment ∅ [] cdNoMatch).1
        (processPrawComment ∅ [] cdNoMatch).2.1 cdNoMatch).2.2 = JsonOutcome.admitted := by
  decide

/-- C3 amended: `markSeen` is idempotent, `seen` holds after `markSeen`,
entries are never removed by processing, and the seen-set entry for an
id is created on the first sighting that yields at least one brand
match; for such ids every later sighting is rejected with no further
drafts.  (Seeding from storage at startup is `seen_ids =
db.get_existing_ids()`, outside the per-item step modelled here.) -/
theorem claim_C3_amended :
    (∀ (s : Finset String) (x : String), markSeen (markSeen s x) x = markSeen s x)
    ∧ (∀ (s : Finset String) (x : String), seenQ (markSeen s x) x)
    ∧ (∀ (s : Finset String) (x : String), s ⊆ markSeen s x)
    ∧ (∀ (seen : Finset String) (buf buf' : List Mention) (cd : CommentData),
        find_brands unifiedBrands cd.body ≠ [] →
        ¬ seenQ seen cd.id →
        seenQ (processPrawComment seen buf cd).1 cd.id
        ∧ (processPrawComment (processPrawComment seen buf cd).1 buf' cd).2.2
            = JsonOutcome.duplicate
        ∧ (processPrawComment (processPrawComment seen buf cd).1 buf' cd).2.1 = buf') := by
  refine ⟨fun s x => Finset.insert_idem x s, fun s x => Finset.mem_insert_self x s,
    fun s x => Finset.subset_insert x s, ?_⟩
  intro seen buf buf' cd hb hseen
  have hne : ¬ (find_brands unifiedBrands cd.body).isEmpty := by
    simpa [List.isEmpty_iff] using hb
  have h1 : processPrawComment seen buf cd
      = (markSeen seen cd.id, buf ++ (find_brands unifiedBrands cd.body).map (mkPrawMention cd),
         JsonOutcome.admitted) := by
    unfold processPrawComment
    rw [if_neg hseen, if_neg hne]
  have hmem : seenQ (markSeen seen cd.id) cd.id := Finset.mem_insert_self _ _
  refine ⟨by rw [h1]; exact hmem, ?_, ?_⟩ <;>
    · rw [h1]
      unfold processPrawComment
      rw [if_pos hmem]

/-- C3 witness: a matching comment is marked seen on first sighting and
its second sighting is rejected without touching the buffer. -/
theorem claim_C3_witness :
    seenQ (processPrawComment ∅ [] cdBadinka).1 cdBadinka.id
    ∧ (processPrawComment (processPrawComment ∅ [] cdBadinka).1 [] cdBadinka).2.2
        = JsonOutcome.duplicate
    ∧ (processPrawComment (processPrawComment ∅ [] cdBadinka).1 [] cdBadinka).2.1 = [] :=
  claim_C3_amended.2.2.2 ∅ [] [] cdBadinka (by decide) (by decide)

/-- The brand list never repeats a brand when the configured names are
distinct (the matcher filters the configuration list). -/
theorem find_brands_nodup (brands : List (String × Rx)) (text : String)
    (h : (brands.map (fun p => p.1)).Nodup) : (find_brands brands text).Nodup := by
  unfold find_brands
  exact h.sublist (List.Sublist.map _ (List.filter_sublist brands))

/-- A comment whose body matches both configured brands. -/
def cdBoth : CommentData :=
  { id := "both1", body := "badinka and iheartraves are great", permalink := "/r/EDM/c/both1",
    created_utc := 1700000200, subreddit := "EDM", author := "u_cara", score := 2 }

/-- C8: a raw item admitted to the matcher (id present, unseen, body
long enough for this adapter) whose text matches N distinct configured
brands yields exactly N buffered Mention drafts — one per matched
brand, all sharing the item's id, pairwise identical except for the
`brand` field, with pairwise distinct brands. -/
theorem claim_C8_multi_brand_drafts (seen : Finset String) (buf : List Mention)
    (cd : CommentData) (hid : ¬ cd.id = "") (hseen : ¬ seenQ seen cd.id)
    (hlen : ¬ cd.body.length < 10) :
    (processJsonComment seen buf cd).2.1
        = buf ++ (find_brands unifiedBrands cd.body).map (mkJsonMention cd)
    ∧ ((find_brands unifiedBrands cd.body).map (mkJsonMention cd)).length
        = (find_brands unifiedBrands cd.body).length
    ∧ (∀ m ∈ (find_brands unifiedBrands cd.body).map (mkJsonMention cd),
        m.id = cd.id ∧ m = mkJsonMention cd m.brand)
    ∧ (∀ m₁ ∈ (find_brands unifiedBrands cd.body).map (mkJsonMention cd),
        ∀ m₂ ∈ (find_brands unifiedBrands cd.body).map (mkJsonMention cd),
        { m₁ with brand := m₂.brand } = m₂)
    ∧ ((find_brands unifiedBrands cd.body).map (mkJsonMention cd)).map Mention.brand
        = find_brands unifiedBrands cd.body
    ∧ (find_brands unifiedBrands cd.body).Nodup := by
  refine ⟨?_, List.length_map _ _, ?_, ?_, ?_, find_brands_nodup _ _ (by decide)⟩
  · unfold processJsonComment
    rw [if_neg hid, if_neg hseen, if_neg hlen]
    by_cases hb : (find_brands unifiedBrands cd.body).isEmpty
    · have he : find_brands unifiedBrands cd.body = [] := by simpa [List.isEmpty_iff] using hb
      simp [hb, he]
    · simp [hb]
  · intro m hm
    obtain ⟨b, _, rfl⟩ := List.mem_map.mp hm
    exact ⟨rfl, rfl⟩
  · intro m₁ hm₁ m₂ hm₂
    obtain ⟨b₁, _, rfl⟩ := List.mem_map.mp hm₁
    obtain ⟨b₂, _, rfl⟩ := List.mem_map.mp hm₂
    rfl
  · rw [List.map_map]
    exact List.map_id _

/-- C8 witness: a comment matching both configured brands yields exactly
the two drafts, one per brand. -/
theorem claim_C8_witness :
    (processJsonComment ∅ [] cdBoth).2.1
        = [] ++ (find_brands unifiedBrands cdBoth.body).map (mkJsonMention cdBoth)
    ∧ find_brands unifiedBrands cdBoth.body = ["badinka", "iheartraves"] :=
  ⟨(claim_C8_multi_brand_drafts ∅ [] cdBoth (by decide) (by decide) (by decide)).1, by decide⟩

/-- A comment shorter than 10 characters whose body still matches the
`badinka` pattern. -/
def cdShortMatch : CommentData :=
  { id := "sh1", body := "#badinka", permalink := "/r/aves/c/sh1",
    created_utc := 1700000300, subreddit := "aves", author := "u_dee", score := 0 }

/-- C10: a JSON-listing comment with body shorter than 10 characters is
dropped by the length gate before matching: no Mention is produced and
the id is not marked seen — even when the body matches a configured
brand (the witness instantiates this with a matching 8-character
body). -/
theorem claim_C10_short_json (seen : Finset String) (buf : List Mention)
    (cd : CommentData) (hid : ¬ cd.id = "") (hseen : ¬ seenQ seen cd.id)
    (hlen : cd.body.length < 10) :
    processJsonComment seen buf cd = (seen, buf, JsonOutcome.tooShort) := by
  unfold processJsonComment
  rw [if_neg hid, if_neg hseen, if_pos hlen]

/-- C10 witness: `"#badinka"` matches the brand pattern yet produces
nothing and leaves the seen-set empty. -/
theorem claim_C10_witness :
    find_brands unifiedBrands cdShortMatch.body = ["badinka"]
    ∧ processJsonComment ∅ [] cdShortMatch = (∅, [], JsonOutcome.tooShort) :=
  ⟨by decide, claim_C10_short_json ∅ [] cdShortMatch (by decide) (by decide) (by decide)⟩

/-! ## Persistence lemmas -/

theorem find?_map_upd (m : Mention) : ∀ (db : List Mention) (r : Mention),
    lookupId db m.id = some r →
    lookupId (db.map (fun x => if x.id == m.id
        then { x with score := m.score, sentiment := m.sentiment } else x)) m.id
      = some { r with score := m.score, sentiment := m.sentiment } := by
  intro db
  induction db with
  | nil => intro r h; simp [lookupId] at h
  | cons a db ih =>
    intro r h
    by_cases ha : (a.id == m.id) = true
    · simp only [lookupId, ha, if_true] at h
      injection h with h'
      subst h'
      simp [lookupId, ha]
    · simp only [lookupId, ha, if_false, Bool.false_eq_true, ite_false] at h
      simp only [List.map_cons, lookupId, ha, if_false, Bool.false_eq_true, ite_false]
      exact ih r h

theorem find?_append_self (m : Mention) : ∀ (db : List Mention),
    db.any (fun r => r.id == m.id) = false →
    lookupId (db ++ [m]) m.id = some m := by
  intro db
  induction db with
  | nil =>
    intro _
    simp [lookupId]
  | cons a db ih =>
    intro h
    simp only [List.any_cons, Bool.or_eq_false_iff] at h
    simp only [List.cons_append, lookupId, h.1, Bool.false_eq_true, ite_false]
    exact ih h.2

theorem lookup_of_any (m : Mention) : ∀ (db : List Mention),
    db.any (fun r => r.id == m.id) = true → ∃ r, lookupId db m.id = some r := by
  intro db
  induction db with
  | nil => intro h; simp at h
  | cons a db ih =>
    intro h
    by_cases ha : (a.id == m.id) = true
    · exact ⟨a, by simp [lookupId, ha]⟩
    · simp only [List.any_cons, ha, Bool.false_or] at h
      obtain ⟨r, hr⟩ := ih h
      exact ⟨r, by simp [lookupId, ha, hr]⟩

/-- The row an id resolves to after an `ON CONFLICT (id) DO UPDATE`
upsert always carries the incoming score and sentiment. -/
theorem lookupId_upsertPg (db : List Mention) (m : Mention) :
    (lookupId (upsertPg db m) m.id).map Mention.sentiment = some m.sentiment
    ∧ (lookupId (upsertPg db m) m.id).map Mention.score = some m.score := by
  unfold upsertPg
  cases ha : db.any (fun r => r.id == m.id) with
  | false =>
    rw [if_neg (by simp)]
    rw [find?_append_self m db ha]
    exact ⟨rfl, rfl⟩
  | true =>
    rw [if_pos rfl]
    obtain ⟨r, hr⟩ := lookup_of_any m db ha
    rw [find?_map_upd m db r hr]
    exact ⟨rfl, rfl⟩

/-- A persisted mention with sentiment already set. -/
def c1First : Mention :=
  { id := "abc", type := "comment", title := none, body := some "badinka is great",
    permalink := "https://reddit.com/r/aves/c/abc", created := 1700000400,
    subreddit := "aves", author := "u_eve", score := 3, sentiment := some "positive",
    brand := "badinka", source := "praw" }

/-- A later upsert of the same id with blank sentiment and a new score. -/
def c1Second : Mention :=
  { c1First with score := 7, sentiment := none }

/-- C1 counterexample: after persisting a mention with sentiment
`positive`, upserting a record with the same id and a blank (None)
sentiment leaves the stored sentiment blank — the upsert is NOT
monotonic and does clear a previously set value. -/
theorem claim_C1_counterexample :
    (lookupId (insertMentionsPg (insertMentionsPg [] [c1First]) [c1Second]) "abc").map
        Mention.sentiment = some none
    ∧ ¬ ((lookupId (insertMentionsPg (insertMentionsPg [] [c1First]) [c1Second]) "abc").map
        Mention.sentiment = some (some "positive")) := by
  decide

/-- C1 amended: the upsert refreshes score and sentiment with the
incoming values unconditionally, so an upsert carrying a blank
sentiment clears a previously stored one.  (In the pipeline itself
every flushed mention has been enriched first, so the records reaching
the upsert carry a non-null sentiment.) -/
theorem claim_C1_amended (db : List Mention) (m : Mention) :
    insertMentionsPg db [m] = upsertPg db m
    ∧ (lookupId (upsertPg db m) m.id).map Mention.sentiment = some m.sentiment
    ∧ (lookupId (upsertPg db m) m.id).map Mention.score = some m.score :=
  ⟨rfl, (lookupId_upsertPg db m).1, (lookupId_upsertPg db m).2⟩

/-- A mention of item `x1` for brand `badinka`. -/
def c2Badinka : Mention :=
  { id := "x1", type := "comment", title := none,
    body := some "badinka and iheartraves are great",
    permalink := "https://reddit.com/r/EDM/c/x1", created := 1700000500,
    subreddit := "EDM", author := "u_cara", score := 2, sentiment := some "neutral",
    brand := "badinka", source := "json" }

/-- The sibling mention of the same item for brand `iheartraves`. -/
def c2Iheartraves : Mention :=
  { c2Badinka with brand := "iheartraves" }

/-- C2: both variants key the store by `id` alone, so the two drafts a
multi-brand item produces can never be stored as distinct records: the
SQLite per-row `INSERT OR REPLACE` loop keeps only the last brand's
record, silently dropping the other, while the Postgres single-statement
batch upsert refuses the duplicate-id batch outright — it raises
`cannot affect row a second time` and stores nothing, so that flush
fails (and, the buffer being kept, every retry of it fails the same
way).  Either way the claimed per-`(id, brand)` idempotent persistence
of a multi-brand item does not hold. -/
theorem claim_C2_code_bug_eval :
    (insertMentionsSqlite [] [c2Badinka, c2Iheartraves]).map Mention.brand = ["iheartraves"]
    ∧ (insertMentionsSqlite [] [c2Badinka, c2Iheartraves]).length = 1
    ∧ hasDupIds [c2Badinka, c2Iheartraves] = true
    ∧ insertMentionsPgStmt [] [c2Badinka, c2Iheartraves]
        = .error "cannot affect row a second time"
    ∧ insertMentionsPgStmt [] [c2Badinka] = .ok [c2Badinka] :=
  ⟨by decide, by decide, rfl, rfl, rfl⟩

/-! ## Flush lemmas -/

/-- A failing `insert_mentions` raises out of `process_mention_buffer`
after the enrichment pass, leaving the store untouched and the buffer
uncleared. -/
theorem processMentionBuffer_fail (enrich : String → String) (st : PipelineState)
    (h : st.buffer ≠ []) :
    processMentionBuffer enrich false st
      = .error { buffer := st.buffer.map (enrichMention enrich), db := st.db } := by
  unfold processMentionBuffer
  rw [if_neg (by simpa [List.isEmpty_iff] using h)]
  rfl

/-- A buffered mention already carrying a sentiment before the flush. -/
def pendingMention : Mention :=
  { id := "pend1", type := "comment", title := none, body := some "i adore badinka stuff",
    permalink := "https://reddit.com/r/aves/c/pend1", created := 1700000600,
    subreddit := "aves", author := "u_finn", score := 5, sentiment := none,
    brand := "badinka", source := "praw" }

/-- C5: the buffer is cleared only when the upsert succeeds: every
successful flush ends with an empty buffer, while a failing upsert
raises with the buffer still holding exactly the same mentions (their
identity and content fields untouched; the enrichment pass that
precedes the upsert may have filled a previously absent sentiment, and
never overwrites one already set), so the batch can be retried and no
buffered mention is lost. -/
theorem claim_C5_flush (enrich : String → String) (st : PipelineState) :
    (∀ st', processMentionBuffer enrich true st = .ok st' → st'.buffer = [])
    ∧ (st.buffer ≠ [] →
        processMentionBuffer enrich false st
          = .error { buffer := st.buffer.map (enrichMention enrich), db := st.db })
    ∧ ((st.buffer.map (enrichMention enrich)).map (fun m => { m with sentiment := none })
        = st.buffer.map (fun m => { m with sentiment := none }))
    ∧ (st.buffer.map (enrichMention enrich)).length = st.buffer.length
    ∧ (∀ m ∈ st.buffer, ∀ s, m.sentiment = some s →
        (enrichMention enrich m).sentiment = some s) := by
  refine ⟨?_, fun h => processMentionBuffer_fail enrich st h, ?_, List.length_map _ _, ?_⟩
  · intro st' h
    unfold processMentionBuffer at h
    by_cases hb : st.buffer.isEmpty
    · rw [if_pos hb] at h
      injection h with h'
      rw [← h']
      simpa [List.isEmpty_iff] using hb
    · rw [if_neg hb] at h
      injection h with h'
      rw [← h']
  · rw [List.map_map]
    refine List.map_congr_left ?_
    intro m _
    by_cases hs : m.sentiment = none <;> simp [enrichMention, hs, Function.comp]
  · intro m _ s hs
    simp [enrichMention, hs]

/-- C5 witness: a one-element buffer, failing upsert — the mention stays
in the buffer (with its sentiment filled by the enrichment pass) and
the store is untouched. -/
theorem claim_C5_witness :
    processMentionBuffer (fun _ => "neutral") false { buffer := [pendingMention], db := [] }
      = .error { buffer := [{ pendingMention with sentiment := some "neutral" }], db := [] } := by
  have h := (claim_C5_flush (fun _ => "neutral")
    { buffer := [pendingMention], db := [] }).2.1 (by simp)
  rw [h]
  rfl

/-! ## Task-loop lemmas -/

theorem adapterTaskLoop_fail (body : PipelineState → Except PipelineState PipelineState)
    (hfail : ∀ s, body s = .error s) :
    ∀ (n : Nat) (ts : TaskState), adapterTaskLoop body n ts = ⟨ts.pipeline, ts.logged + n⟩ := by
  intro n
  induction n with
  | zero => intro ts; rfl
  | succ n ih =>
    intro ts
    show (match body ts.pipeline with
      | .ok st' => adapterTaskLoop body n ⟨st', ts.logged⟩
      | .error st' => adapterTaskLoop body n ⟨st', ts.logged + 1⟩) = _
    rw [hfail ts.pipeline]
    show adapterTaskLoop body n ⟨ts.pipeline, ts.logged + 1⟩ = _
    rw [ih ⟨ts.pipeline, ts.logged + 1⟩]
    have : ts.logged + 1 + n = ts.logged + (n + 1) := by omega
    rw [this]

/-- C9 counterexample: `periodic_buffer_flush` has no `try`/`except`
around its loop body, so a single persistence failure propagates out of
the loop and terminates the flush task — it does not catch, log and
continue as the claim states for every task. -/
theorem claim_C9_counterexample :
    flushTaskLoop (fun _ => "neutral") false 5 { buffer := [pendingMention], db := [] }
      = .error { buffer := [{ pendingMention with sentiment := some "neutral" }], db := [] }
    ∧ (flushTaskLoop (fun _ => "neutral") false 5
        { buffer := [pendingMention], db := [] }).isOk = false :=
  ⟨rfl, rfl⟩

/-- C9 amended: each source adapter task's top-level loop catches any
iteration error, logs it and continues — it completes all `n` scheduled
iterations even when every one of them fails — whereas the periodic
flush task has no top-level catch, so a persistence failure terminates
its loop on the first failing iteration no matter how many iterations
remain (sibling tasks are unaffected: `run` gathers the tasks with
`return_exceptions=True`). -/
theorem claim_C9_amended (n : Nat) (enrich : String → String) (st : PipelineState)
    (ts : TaskState) (body : PipelineState → Except PipelineState PipelineState)
    (hfail : ∀ s, body s = .error s) (hbuf : st.buffer ≠ []) :
    adapterTaskLoop body n ts = ⟨ts.pipeline, ts.logged + n⟩
    ∧ flushTaskLoop enrich false (n + 1) st
        = .error { buffer := st.buffer.map (enrichMention enrich), db := st.db } := by
  refine ⟨adapterTaskLoop_fail body hfail n ts, ?_⟩
  have hit : periodicFlushIteration enrich false st
      = .error { buffer := st.buffer.map (enrichMention enrich), db := st.db } := by
    unfold periodicFlushIteration
    rw [if_neg (by simpa [List.isEmpty_iff] using hbuf)]
    exact processMentionBuffer_fail enrich st hbuf
  show (match periodicFlushIteration enrich false st with
    | .ok st' => flushTaskLoop enrich false n st'
    | .error e => .error e) = _
  rw [hit]

/-- C9 witness: three failing iterations leave the adapter loop running
with three errors logged, while the flush task dies on its first. -/
theorem claim_C9_witness :
    adapterTaskLoop (fun s => .error s) 3 ⟨{ buffer := [], db := [] }, 0⟩
      = ⟨{ buffer := [], db := [] }, 0 + 3⟩
    ∧ flushTaskLoop (fun _ => "neutral") false 4 { buffer := [pendingMention], db := [] }
        = .error { buffer := [pendingMention].map (enrichMention (fun _ => "neutral")), db := [] } :=
  claim_C9_amended 3 (fun _ => "neutral") { buffer := [pendingMention], db := [] }
    ⟨{ buffer := [], db := [] }, 0⟩ (fun s => .error s) (fun _ => rfl) (by simp)

/-! ## Sentiment enricher lemmas -/

theorem startsWith_append_self : ∀ (p q : List Char), startsWithChars p (p ++ q) = true := by
  intro p q
  induction p with
  | nil => rfl
  | cons a as ih => simp [startsWithChars, ih]

theorem containsSub_append_self : ∀ (p q : List Char), containsSub p (p ++ q) = true := by
  intro p q
  cases p with
  | nil => cases q <;> rfl
  | cons a as =>
    show containsSub (a :: as) ((a :: as) ++ q) = true
    have hs : startsWithChars (a :: as) ((a :: as) ++ q) = true := startsWith_append_self _ _
    show (startsWithChars (a :: as) ((a :: as) ++ q) || containsSub (a :: as) (as ++ q)) = true
    rw [hs]
    rfl

/-- The credential disjuncts of the guard can never fire: the header is
built as `f"Bearer {api_token}"`, which is nonempty and always contains
`"Bearer "` — with every token, including the empty one. -/
theorem credentialAbsentCheck_false (token : String) : credentialAbsentCheck token = false := by
  unfold credentialAbsentCheck
  have h1 : (("Bearer " ++ token) == "") = false := by
    rw [beq_eq_false_iff_ne]
    intro h
    have hd := congrArg String.data h
    have : "Bearer ".data ++ token.data = [] := hd
    simp at this
  have h2 : containsSub "Bearer ".data ("Bearer " ++ token).data = true := by
    show containsSub "Bearer ".data ("Bearer ".data ++ token.data) = true
    exact containsSub_append_self _ _
  rw [h1, h2]
  rfl

/-- C6 counterexample: with an absent (empty) bearer credential and
nonempty text, `analyze` still makes the outbound call (second
component `true`), refuting "returns neutral without making an outbound
call"; the 401 such a call earns still yields `"neutral"`. -/
theorem claim_C6_counterexample :
    analyze "" "check out badinka gear" (.httpStatus 401) = ("neutral", true)
    ∧ ¬ ((analyze "" "check out badinka gear" (.httpStatus 401)).2 = false) := by
  decide

/-- C6 amended: empty or whitespace-only text yields `"neutral"` with no
outbound call; a non-success status, a timeout/network failure, or a
malformed payload (empty result array, or empty score list) each yield
`"neutral"`; `analyze` is a total function, so no input raises.  The
credential guard, however, can never fire — the header always contains
`"Bearer "` — so an absent credential does not suppress the outbound
call: the call is made and the resulting non-success response yields
`"neutral"`.  (The unified variant has no credential guard at all.) -/
theorem claim_C6_amended :
    (∀ (token : String) (resp : ApiResponse), analyze token "" resp = ("neutral", false))
    ∧ (∀ (token text : String) (resp : ApiResponse), (stripChars text.data).isEmpty = true →
        analyze token text resp = ("neutral", false))
    ∧ (∀ token : String, credentialAbsentCheck token = false)
    ∧ (∀ (token text : String) (s : Nat), (analyze token text (.httpStatus s)).1 = "neutral")
    ∧ (∀ token text : String, (analyze token text .failure).1 = "neutral")
    ∧ (∀ token text : String, (analyze token text (.success [])).1 = "neutral")
    ∧ (∀ (token text : String) (tl : List (List LabelScore)),
        (analyze token text (.success ([] :: tl))).1 = "neutral") := by
  refine ⟨fun token resp => rfl, ?_, credentialAbsentCheck_false, ?_, ?_, ?_, ?_⟩
  · intro token text resp h
    simp [analyze, analyzeGuard, h]
  all_goals
    intro token text
    try intro s
    by_cases hg : analyzeGuard token text = true <;> simp [analyze, hg]

/-- C6 witness: a non-success response on empty text, and a
whitespace-only text with a well-formed positive payload, both yield
`"neutral"` without an outbound call. -/
theorem claim_C6_witness :
    analyze "tok" "" (.httpStatus 500) = ("neutral", false)
    ∧ analyze "tok" "   " (.success [[{ label := "positive", score := 1 }]])
        = ("neutral", false) :=
  ⟨claim_C6_amended.1 "tok" _, claim_C6_amended.2.1 "tok" "   " _ (by decide)⟩

end BadinkaMonitor
